import Mathlib

/-!
Verification of the Configurator QUIC-style serial protocol.

The development shallowly embeds the two protocol implementations of the
repository:
  * `pkg/protocol/quic/protocol.go` — the streaming-capable, mutex-serialized
    implementation (`readHeader`, `readPacket`, `Send`, `Get`, `Set`, ...);
  * `pkg/controller/quic.go` — the older controller implementation
    (`ReadQUIC`, `SendQUIC`, `GetQUIC`, `SetQUIC`).

Transports are modelled as finite byte streams (`List Nat`, each element a
byte value); reading consumes from the front and an empty list means the
transport is exhausted (reads report end-of-stream).  CBOR encoding is a
black box in the source, so payloads on the value level are modelled as
lists of already-decoded CBOR items that a decoder consumes in order.
-/

namespace Configurator

/-- Byte values travelling on the wire (Go `byte`, always < 256 in Go). -/
abbrev Byte := Nat

/-! ### Command, flag and value constants

`QuicCmdInvalid` .. `QuicCmdBlackbox` are declared in
`pkg/controller/quic.go` (iota 0..5).  The quic package's own copies of the
constants live in a file of the package that is not under `src/`. -/

def QuicCmdInvalid : Nat := 0

def QuicCmdGet : Nat := 1

def QuicCmdSet : Nat := 2

def QuicCmdLog : Nat := 3

def QuicCmdCalImu : Nat := 4

def QuicCmdBlackbox : Nat := 5

/-- Modelled from the spec: the quic package's `QuicCmdMax` sentinel is in a
package file missing from `src/`; §3 bounds the command enumeration above by
a `Max` sentinel, one past the last command (`Blackbox` = 5). -/
def QuicCmdMax : Nat := 6

def QuicFlagNone : Nat := 0

def QuicFlagError : Nat := 1

/-- Modelled from the spec: §6 gives the flag values (0=None, 1=Error,
2=Streaming, 4=Exit); the quic package file declaring `QuicFlagStreaming`
is not under `src/`. -/
def QuicFlagStreaming : Nat := 2

/-- Modelled from the spec: §6 gives the flag values (0=None, 1=Error,
2=Streaming, 4=Exit); the quic package file declaring `QuicFlagExit`
is not under `src/`. -/
def QuicFlagExit : Nat := 4

/-- Header length: `quicHeaderLen = uint16(4)` in `pkg/controller/quic.go`. -/
def quicHeaderLen : Nat := 4

/-- The magic byte `'#'` (0x23) that begins every frame. -/
def magicByte : Byte := 35

/-- Errors of the protocol layer, mirroring the named `errors.New` values of
the source plus the anonymous errors it constructs. -/
inductive QuicError where
  /-- `ErrShortWrite` -/
  | shortWrite
  /-- `ErrShortRead` -/
  | shortRead
  /-- `ErrInvalidMagic` -/
  | invalidMagic
  /-- `ErrInvalidCommand` -/
  | invalidCommand
  /-- the transport signalled end-of-stream (`io.EOF` and friends) -/
  | eof
  /-- a CBOR decode failed (malformed or truncated encoding) -/
  | decodeFailure
  /-- `errors.New(msg)` built from an Error-flagged reply payload -/
  | protocolError (msg : String)
  /-- `fmt.Errorf("typ (%d) != inTyp (%d)", typ, inTyp)` -/
  | tagMismatch (typ inTyp : Nat)
  /-- `errors.New("quic recive timeout")` -/
  | timeout (msg : String)
  deriving DecidableEq

/-- A decoded frame header (`QuicPacket` fields `cmd`, `flag`, `len` before
the payload is attached). -/
structure QuicHeader where
  cmd : Nat
  flag : Nat
  len : Nat
  deriving DecidableEq

/-- Modelled from the spec: `pkg/util.ReadAtLeast` is not under `src/`.
Per §4.1 header decoding fails when fewer than the requested bytes are
available from the transport, so the model takes exactly `n` bytes from the
stream or reports end-of-stream. -/
def readAtLeast : List Byte → Nat → Except QuicError (List Byte × List Byte)
  | src, 0 => .ok ([], src)
  | [], _ + 1 => .error .eof
  | b :: src, n + 1 =>
    match readAtLeast src n with
    | .ok (xs, rest) => .ok (b :: xs, rest)
    | .error e => .error e

/-- Embeds `QuicProtocol.readHeader` (protocol.go:67-94).  One byte is read;
an exhausted transport surfaces the read error, the magic byte `'#'` lets
the header be read, and ANY other byte makes the function return
`ErrInvalidMagic` (the loop only re-runs for zero-length reads, which a
byte-stream model does not produce).  After the magic, `quicHeaderLen - 1`
bytes are read and split: command is the low 5 bits of byte 0
(`header[0] & (0xff >> 3)`), flag the high 3 bits (`header[0] >> 5`), and
the length is big-endian over bytes 1-2 (`uint16(b1)<<8 | uint16(b2)`,
which for byte inputs equals `b1 * 256 + b2` since the bit ranges are
disjoint). -/
def readHeader (src : List Byte) : Except QuicError (QuicHeader × List Byte) :=
  match src with
  | [] => .error .eof
  | b :: rest =>
    if b = magicByte then
      match readAtLeast rest (quicHeaderLen - 1) with
      | .error e => .error e
      | .ok ([b0, b1, b2], rest2) =>
        .ok ({ cmd := b0 &&& 31, flag := b0 >>> 5, len := b1 * 256 + b2 }, rest2)
      | .ok (_, _) => .error .eof
    else .error .invalidMagic

/-- Embeds the header-validation stage of `readPacket` (protocol.go:96-104):
after `readHeader`, a command that is `>= QuicCmdMax` or `== QuicCmdInvalid`
makes `readPacket` return `ErrInvalidCommand` before any payload is read or
classified. -/
def readPacketHdr (src : List Byte) : Except QuicError (QuicHeader × List Byte) :=
  match readHeader src with
  | .error e => .error e
  | .ok (h, rest) =>
    if QuicCmdMax ≤ h.cmd ∨ h.cmd = QuicCmdInvalid then .error .invalidCommand
    else .ok (h, rest)

/-- Embeds `io.CopyN(dst, src, n)` over a finite byte stream: it copies
`min n available` bytes and reports `io.EOF` exactly when fewer than `n`
bytes were available. -/
def copyN (src : List Byte) (n : Nat) : List Byte × List Byte × Option QuicError :=
  if n ≤ src.length then (src.take n, src.drop n, none)
  else (src, [], some .eof)

/-- Embeds the non-streaming payload loop of `readPacket`
(protocol.go:118-130):

    for b.Len() != int(p.len) {
      n, err := io.CopyN(b, proto.rw, int64(p.len)-int64(b.Len()))
      if err != nil {
        if err == io.EOF { continue }
        return nil, err
      }
      if n == 0 { return nil, ErrShortRead }
    }

`fuel` bounds the number of iterations the model is willing to run; a `none`
result means the loop ran for `fuel` iterations without returning, for every
`fuel` — i.e. the Go loop does not terminate. -/
def readPayloadLoop : Nat → List Byte → List Byte → Nat →
    Option (Except QuicError (List Byte × List Byte))
  | 0, _, _, _ => none
  | fuel + 1, b, src, plen =>
    if b.length = plen then some (.ok (b, src))
    else
      match copyN src (plen - b.length) with
      | (chunk, rest, some _) => readPayloadLoop fuel (b ++ chunk) rest plen
      | (chunk, rest, none) =>
        if chunk.length = 0 then some (.error .shortRead)
        else readPayloadLoop fuel (b ++ chunk) rest plen

/-- Embeds the frame construction of `Send` (protocol.go:204-209):

    buf := bytes.NewBuffer([]byte{'#', byte(cmd),
      byte((len(data) >> 8) & 0xFF), byte(len(data) & 0xFF)})
    buf.Write(data)

The Go `byte(x)` conversion truncates to 8 bits (the `& 0xFF` masks are
redundant with it).  There is no check on `len(data)`: the frame is always
produced.  `SendQUIC` (quic.go:124-130) builds the identical frame. -/
def sendFrame (cmd : Nat) (data : List Byte) : List Byte :=
  [magicByte, cmd % 256, (data.length >>> 8) % 256, data.length % 256] ++ data

/-- Embeds the sub-frame loop of the streaming branch of `readPacket`
(protocol.go:157-173): headers are read with `readHeader`; a sub-frame of
length 0 terminates the logical payload (flush + close), a non-zero
sub-frame has its `h.len` payload bytes appended to the pipe, in order.
`fuel` bounds the number of sub-frames the model processes. -/
def readSubframes : Nat → List Byte → List Byte →
    Option (Except QuicError (List Byte × List Byte))
  | 0, _, _ => none
  | fuel + 1, acc, src =>
    match readHeader src with
    | .error e => some (.error e)
    | .ok (h, rest) =>
      if h.len = 0 then some (.ok (acc, rest))
      else
        match copyN rest h.len with
        | (chunk, rest2, none) => readSubframes fuel (acc ++ chunk) rest2
        | (_, _, some e) => some (.error e)

/-- The streaming read path of `readPacket`: the initial frame's own
`p.len` payload bytes (protocol.go:113) followed by the sub-frame loop.
The result is the byte sequence made available through the pipe, paired
with the unconsumed remainder of the transport. -/
def readStreaming (fuel plen : Nat) (src : List Byte) :
    Option (Except QuicError (List Byte × List Byte)) :=
  match copyN src plen with
  | (chunk, rest, none) => readSubframes fuel chunk rest
  | (_, _, some e) => some (.error e)

/-- Wire encoding of one continuation sub-frame carrying payload `c`
(spec §6: same frame format, big-endian 16-bit length; the command/flag
byte of a sub-frame is ignored by the loop, here 0). -/
def subframe (c : List Byte) : List Byte :=
  magicByte :: 0 :: c.length / 256 :: c.length % 256 :: c

/-- The zero-length terminator sub-frame. -/
def streamTerm : List Byte := [magicByte, 0, 0, 0]

/-- Wire encoding of a whole sub-frame chain: the chunks in order, then the
terminator. -/
def encodeSubframes (chunks : List (List Byte)) : List Byte :=
  (chunks.map subframe).flatten ++ streamTerm

/-! ### Value level: CBOR payloads as item lists

The source treats CBOR as a black box (spec §1); a payload is modelled as
the list of items its byte encoding holds, in order, and a decoder consumes
one item per `Decode` call.  `bad` stands for a byte sequence that fails to
decode (malformed encoding); an empty list stands for an exhausted payload
(decoding from it fails with EOF, as `cbor.Decoder` does). -/
inductive CborItem where
  /-- an unsigned integer item (value tags, numbers) -/
  | num (n : Nat)
  /-- a text string item -/
  | str (s : String)
  /-- a map item (e.g. a telemetry record) -/
  | map
  /-- a malformed encoding: every decode attempt on it fails -/
  | bad
  deriving DecidableEq

/-- Decoding one item as a Go `string` (`cbor ... Decode(&msg)` /
`cbor.Unmarshal(payload, val)` with a `*string` target): succeeds only when
the next item is a text string. -/
def decodeStr : List CborItem → Option (String × List CborItem)
  | .str s :: rest => some (s, rest)
  | _ => none

/-- Decoding one item as an unsigned integer (`Decode(&inTyp)` with a
`QuicValue`/`QuicCommand` target). -/
def decodeNat : List CborItem → Option (Nat × List CborItem)
  | .num n :: rest => some (n, rest)
  | _ => none

/-- Decoding one item into a dynamic target (`interface{}` or the caller's
typed target): any well-formed item decodes, an empty payload (EOF) or a
malformed encoding fails. -/
def decodeAny : List CborItem → Option (CborItem × List CborItem)
  | [] => none
  | .bad :: _ => none
  | it :: rest => some (it, rest)

/-- Decoding into the controller's `*Blackbox` struct
(`cbor.Unmarshal(packet.payload, val)`): requires a map item. -/
def decodeBlackbox : List CborItem → Option (List CborItem)
  | .map :: rest => some rest
  | _ => none

/-- A packet whose payload has been frame-decoded, at the value level:
`QuicPacket` of protocol.go / `quicPacket` of quic.go. -/
structure QPacket where
  cmd : Nat
  flag : Nat
  payload : List CborItem
  deriving DecidableEq

/-- Outcome of the classification switch of `readPacket`
(protocol.go:134-155) as seen by the `read()` loop. -/
inductive ClassifyResult where
  /-- `errUpdatePacket`: the packet was consumed internally and `read()`
  loops on to the next packet -/
  | update
  /-- an error returned from `readPacket` (and hence from `read()`) -/
  | errResult (e : QuicError)
  /-- the packet is surfaced to `read()`'s caller -/
  | deliver (p : QPacket)
  deriving DecidableEq

/-- Embeds the classification switch of `readPacket` (protocol.go:134-155).
`infoVersion` is the cached `proto.info` (none while no `Info()` call has
succeeded, otherwise its `QuicProtocolVersion`):

    switch {
    case p.cmd == QuicCmdLog:
      decode string; on error: return nil, err          // surfaced!
      push onto proto.Log (select/default); return nil, errUpdatePacket
    case (proto.info == nil || ...Version == 1) && p.cmd == QuicCmdBlackbox:
      decode interface{}; on error: log.Error(...); return nil, errUpdatePacket
      return nil, errUpdatePacket
    default: break
    }
-/
def classifyPacket (infoVersion : Option Nat) (p : QPacket) : ClassifyResult :=
  if p.cmd = QuicCmdLog then
    match decodeStr p.payload with
    | some _ => .update
    | none => .errResult .decodeFailure
  else if (infoVersion = none ∨ infoVersion = some 1) ∧ p.cmd = QuicCmdBlackbox then
    match decodeAny p.payload with
    | some _ => .update
    | none => .update
  else .deliver p

/-- Embeds the `read()` loop (protocol.go:182-196) over the classified
packet sequence: `errUpdatePacket` makes it continue with the next packet,
any other error or a surfaced packet ends it. -/
def readLoop (v : Option Nat) : List QPacket → Except QuicError QPacket
  | [] => .error .eof
  | p :: rest =>
    match classifyPacket v p with
    | .update => readLoop v rest
    | .errResult e => .error e
    | .deliver q => .ok q

/-- Embeds the reply handling of `Send` (protocol.go:223-234): a reply with
the Error flag has its payload decoded as one string and is turned into an
error carrying that string; every other reply is returned as the value
packet. -/
def sendReply (p : QPacket) : Except QuicError QPacket :=
  if p.flag = QuicFlagError then
    match decodeStr p.payload with
    | some (msg, _) => .error (.protocolError msg)
    | none => .error .decodeFailure
  else .ok p

/-- Embeds the reply validation of `Get` (protocol.go:250-267): after
`Send`, the first payload element is decoded as the echoed tag
(`dec.Decode(&inTyp)` through a 1-byte `LimitReader` — small tags occupy
one byte); a mismatch with the requested tag is a tag-mismatch error,
otherwise the rest of the payload is handed to the caller. -/
def GetReply (typ : Nat) (reply : QPacket) : Except QuicError (List CborItem) :=
  match sendReply reply with
  | .error e => .error e
  | .ok p =>
    match decodeNat p.payload with
    | none => .error .decodeFailure
    | some (inTyp, rest) =>
      if typ ≠ inTyp then .error (.tagMismatch typ inTyp) else .ok rest

/-- Embeds the reply validation of `Set` (protocol.go:282-310), whose
post-`Send` logic is the same echoed-tag check as `Get`'s, duplicated in
the source. -/
def SetReply (typ : Nat) (reply : QPacket) : Except QuicError (List CborItem) :=
  match sendReply reply with
  | .error e => .error e
  | .ok p =>
    match decodeNat p.payload with
    | none => .error .decodeFailure
    | some (inTyp, rest) =>
      if typ ≠ inTyp then .error (.tagMismatch typ inTyp) else .ok rest

/-- Embeds `GetValue` (protocol.go:269-280): `Get`, then decode the
remainder of the reply payload into the caller's target. -/
def GetValueReply (typ : Nat) (reply : QPacket) : Except QuicError CborItem :=
  match GetReply typ reply with
  | .error e => .error e
  | .ok rest =>
    match decodeAny rest with
    | none => .error .decodeFailure
    | some (v, _) => .ok v

/-- Embeds the await/handling part of `SendQUIC` (quic.go:137-149): the Go
`select` either receives the correlated packet within the one-second window
(`delivered = some p`) or times out (`delivered = none`, returning
`errors.New("quic recive timeout")`); a received packet with the Error flag
is decoded as one string and surfaced as an error. -/
def sendQUIC (delivered : Option QPacket) : Except QuicError QPacket :=
  match delivered with
  | none => .error (.timeout "quic recive timeout")
  | some p =>
    if p.flag = QuicFlagError then
      match decodeStr p.payload with
      | some (msg, _) => .error (.protocolError msg)
      | none => .error .decodeFailure
    else .ok p

/-- Embeds `GetQUIC` (quic.go:152-177): `SendQUIC`, decode the echoed tag,
reject a mismatch, then decode the caller's value from the rest of the
payload. -/
def getQUIC (typ : Nat) (delivered : Option QPacket) : Except QuicError CborItem :=
  match sendQUIC delivered with
  | .error e => .error e
  | .ok p =>
    match decodeNat p.payload with
    | none => .error .decodeFailure
    | some (inTyp, rest) =>
      if typ ≠ inTyp then .error (.tagMismatch typ inTyp)
      else
        match decodeAny rest with
        | none => .error .decodeFailure
        | some (v, _) => .ok v

/-- Embeds `SetQUIC` (quic.go:179-209), whose reply handling is the same
echoed-tag check and value decode as `GetQUIC`'s, duplicated in the
source. -/
def setQUIC (typ : Nat) (delivered : Option QPacket) : Except QuicError CborItem :=
  match sendQUIC delivered with
  | .error e => .error e
  | .ok p =>
    match decodeNat p.payload with
    | none => .error .decodeFailure
    | some (inTyp, rest) =>
      if typ ≠ inTyp then .error (.tagMismatch typ inTyp)
      else
        match decodeAny rest with
        | none => .error .decodeFailure
        | some (v, _) => .ok v

/-- Outcome of the dispatch switch of `ReadQUIC` (quic.go:97-119). -/
inductive ReadQUICResult where
  /-- `log.Fatal(err)`: the whole process exits -/
  | fatal
  /-- `QuicLog <- *val` -/
  | logEvent (s : String)
  /-- `QuicBlackbox <- *val` -/
  | blackboxEvent
  /-- `quicChannel[cmd] <- packet` found a ready receiver -/
  | dispatched (p : QPacket)
  /-- the select went to `default`: no waiter was receiving, dropped -/
  | dropped (p : QPacket)
  deriving DecidableEq

/-- Embeds the dispatch switch of `ReadQUIC` (quic.go:97-119).  No command
validation is performed.  `Log` and `Blackbox` packets are decoded and
pushed onto their event channels — a decode failure is `log.Fatal`.  Every
other command goes to the per-command correlation channel through a select
with a `default` branch: `waiterReady` abstracts whether a caller is
currently receiving on `quicChannel[cmd]`; when none is, the packet is
dropped. -/
def readQUICDispatch (p : QPacket) (waiterReady : Bool) : ReadQUICResult :=
  if p.cmd = QuicCmdLog then
    match decodeStr p.payload with
    | some (s, _) => .logEvent s
    | none => .fatal
  else if p.cmd = QuicCmdBlackbox then
    match decodeBlackbox p.payload with
    | some _ => .blackboxEvent
    | none => .fatal
  else if waiterReady then .dispatched p else .dropped p

/-! ### Session close (C10) -/

/-- State of a Go channel as far as `close` is concerned. -/
inductive ChanState where
  | opened
  | closed
  deriving DecidableEq

/-- Go semantics of `close(ch)`: closing an already-closed channel panics
(Go spec, "Close"); `none` models the panic. -/
def closeChan : ChanState → Option ChanState
  | .opened => some .closed
  | .closed => none

/-- The per-session state relevant to `Close`: the `Log` channel created by
`NewQuicProtocol` (protocol.go:39). -/
structure Session where
  logChan : ChanState
  deriving DecidableEq

/-- Result of running `Close` on a session. -/
inductive CloseResult where
  | ok (s : Session)
  | panicked
  deriving DecidableEq

/-- Embeds `QuicProtocol.Close` (protocol.go:62-65):

    func (proto *QuicProtocol) Close() error {
      close(proto.Log)
      return nil
    }

It closes `proto.Log` unconditionally — there is no guard, flag or
`sync.Once`. -/
def closeSession (s : Session) : CloseResult :=
  match closeChan s.logChan with
  | some c => .ok { logChan := c }
  | none => .panicked

/-- Embeds the tail of `readPacket` (protocol.go:175-177): a packet whose
flag is `Exit` triggers an automatic `proto.Close()`. -/
def handleExitFlag (flag : Nat) (s : Session) : CloseResult :=
  if flag = QuicFlagExit then closeSession s else .ok s

/-! ## Helper lemmas -/

theorem readAtLeast_three (b0 b1 b2 : Byte) (rest : List Byte) :
    readAtLeast (b0 :: b1 :: b2 :: rest) 3 = .ok ([b0, b1, b2], rest) := by
  simp [readAtLeast]

theorem readHeader_magic (b0 b1 b2 : Byte) (rest : List Byte) :
    readHeader (magicByte :: b0 :: b1 :: b2 :: rest) =
      .ok ({ cmd := b0 &&& 31, flag := b0 >>> 5, len := b1 * 256 + b2 }, rest) := by
  simp [readHeader, magicByte, quicHeaderLen, readAtLeast_three]

theorem copyN_append (p t : List Byte) : copyN (p ++ t) p.length = (p, t, none) := by
  have hle : p.length ≤ (p ++ t).length := by
    simp [List.length_append]
  simp [copyN, hle, List.take_left, List.drop_left]

/-- On a transport that is already exhausted, the payload loop spins:
`CopyN` keeps returning `(0, io.EOF)`, the `continue` branch re-runs the
loop, and no iteration ever returns. -/
theorem readPayloadLoop_exhausted (fuel : Nat) :
    ∀ b plen, b.length < plen → readPayloadLoop fuel b [] plen = none := by
  induction fuel with
  | zero => intro b plen _; rfl
  | succ fuel ih =>
    intro b plen h
    have hne : b.length ≠ plen := Nat.ne_of_lt h
    have hcopy : copyN [] (plen - b.length) = ([], [], some .eof) := by
      have hcond : ¬ plen - b.length ≤ ([] : List Byte).length := by
        simp only [List.length_nil, Nat.le_zero]
        omega
      rw [copyN, if_neg hcond]
    simp only [readPayloadLoop, hne, if_false, hcopy]
    have := ih (b ++ []) plen (by simpa using h)
    simpa using this

/-- When the transport holds at least `plen` bytes the loop accumulates
exactly `plen` bytes and stops, leaving the remainder of the stream. -/
theorem readPayloadLoop_complete (p tail : List Byte) :
    readPayloadLoop 2 [] (p ++ tail) p.length = some (.ok (p, tail)) := by
  cases hp : p with
  | nil => simp [readPayloadLoop]
  | cons x xs =>
    have hlen : (x :: xs).length ≤ ((x :: xs) ++ tail).length := by
      simp [List.length_append]
    have hcopy : copyN ((x :: xs) ++ tail) ((x :: xs).length - ([] : List Byte).length) =
        ((x :: xs), tail, none) := by
      simp only [List.length_nil, Nat.sub_zero]
      simp [copyN, hlen, List.take_left, List.drop_left]
    have hne : ([] : List Byte).length ≠ (x :: xs).length := by simp
    simp only [readPayloadLoop, hne, if_false, hcopy]
    simp [readPayloadLoop]

theorem readSubframes_term (fuel : Nat) (acc src rest : List Byte)
    (h : QuicHeader) (hh : readHeader src = .ok (h, rest)) (hz : h.len = 0) :
    readSubframes (fuel + 1) acc src = some (.ok (acc, rest)) := by
  simp only [readSubframes, hh, hz, if_true]

theorem readSubframes_step (fuel : Nat) (acc src rest chunk rest2 : List Byte)
    (h : QuicHeader) (hh : readHeader src = .ok (h, rest)) (hz : h.len ≠ 0)
    (hc : copyN rest h.len = (chunk, rest2, none)) :
    readSubframes (fuel + 1) acc src = readSubframes fuel (acc ++ chunk) rest2 := by
  simp only [readSubframes, hh, hz, if_false, hc]

theorem readSubframes_encode (chunks : List (List Byte)) (acc rest : List Byte)
    (h : ∀ c ∈ chunks, c ≠ [] ∧ c.length < 65536) :
    readSubframes (chunks.length + 1) acc (encodeSubframes chunks ++ rest) =
      some (.ok (acc ++ chunks.flatten, rest)) := by
  induction chunks generalizing acc with
  | nil =>
    have hh : readHeader (encodeSubframes [] ++ rest) =
        .ok ({ cmd := 0 &&& 31, flag := 0 >>> 5, len := 0 * 256 + 0 }, rest) := by
      have := readHeader_magic 0 0 0 rest
      simpa [encodeSubframes, streamTerm] using this
    rw [List.length_nil, readSubframes_term 0 acc _ rest _ hh (by norm_num)]
    simp
  | cons c cs ih =>
    obtain ⟨hcne, _⟩ := h c (by simp)
    have hlen : c.length ≠ 0 := by
      intro h0
      exact hcne (List.eq_nil_of_length_eq_zero h0)
    have henc : encodeSubframes (c :: cs) ++ rest =
        magicByte :: 0 :: c.length / 256 :: c.length % 256 ::
          (c ++ (encodeSubframes cs ++ rest)) := by
      simp [encodeSubframes, subframe, List.append_assoc]
    have hh : readHeader (encodeSubframes (c :: cs) ++ rest) =
        .ok ({ cmd := 0 &&& 31, flag := 0 >>> 5, len := c.length },
          c ++ (encodeSubframes cs ++ rest)) := by
      have hm := readHeader_magic 0 (c.length / 256) (c.length % 256)
        (c ++ (encodeSubframes cs ++ rest))
      have hdm : c.length / 256 * 256 + c.length % 256 = c.length := by
        omega
      rw [hdm] at hm
      rw [henc]
      exact hm
    have hcopy : copyN (c ++ (encodeSubframes cs ++ rest)) c.length =
        (c, encodeSubframes cs ++ rest, none) :=
      copyN_append c (encodeSubframes cs ++ rest)
    have ihs := ih (acc ++ c) (fun d hd => h d (by simp [hd]))
    rw [List.length_cons,
      readSubframes_step (cs.length + 1) acc _ _ c _ _ hh hlen hcopy, ihs]
    simp [List.append_assoc]

theorem decodeNat_eq_some (l : List CborItem) (n : Nat) (rest : List CborItem) :
    decodeNat l = some (n, rest) ↔ l = .num n :: rest := by
  cases l with
  | nil => simp [decodeNat]
  | cons it tail =>
    cases it <;> simp [decodeNat]

theorem sendReply_ok_iff (q p : QPacket) :
    sendReply q = .ok p ↔ q.flag ≠ QuicFlagError ∧ p = q := by
  unfold sendReply
  by_cases hf : q.flag = QuicFlagError
  · cases hd : decodeStr q.payload with
    | none => simp [hf]
    | some ms => simp [hf]
  · simp [hf, eq_comm]

theorem GetReply_ok (typ : Nat) (r : QPacket) (tl : List CborItem)
    (h : GetReply typ r = .ok tl) :
    r.flag ≠ QuicFlagError ∧ r.payload = .num typ :: tl := by
  unfold GetReply at h
  cases hsp : sendReply r with
  | error e =>
    simp only [hsp] at h
    exact Except.noConfusion h
  | ok p =>
    obtain ⟨hf, rfl⟩ := (sendReply_ok_iff r p).mp hsp
    simp only [hsp] at h
    refine ⟨hf, ?_⟩
    cases hd : decodeNat p.payload with
    | none =>
      simp only [hd] at h
      exact Except.noConfusion h
    | some pr =>
      obtain ⟨inTyp, rest⟩ := pr
      simp only [hd] at h
      by_cases hne : typ ≠ inTyp
      · simp only [if_pos hne] at h
        exact Except.noConfusion h
      · push_neg at hne
        subst hne
        rw [if_neg (by simp)] at h
        injection h with h2
        exact h2 ▸ (decodeNat_eq_some p.payload typ rest).mp hd

theorem sendQUIC_ok (d : Option QPacket) (p : QPacket)
    (h : sendQUIC d = .ok p) : d = some p ∧ p.flag ≠ QuicFlagError := by
  cases d with
  | none => simp [sendQUIC] at h
  | some q =>
    simp only [sendQUIC] at h
    by_cases hf : q.flag = QuicFlagError
    · rw [if_pos hf] at h
      cases hd : decodeStr q.payload with
      | none =>
        simp only [hd] at h
        exact Except.noConfusion h
      | some ms =>
        obtain ⟨msg, rr⟩ := ms
        simp only [hd] at h
        exact Except.noConfusion h
    · rw [if_neg hf] at h
      injection h with h2
      subst h2
      exact ⟨rfl, hf⟩

theorem getQUIC_ok (typ : Nat) (d : Option QPacket) (v : CborItem)
    (h : getQUIC typ d = .ok v) :
    ∃ p tl, d = some p ∧ p.payload = .num typ :: tl := by
  unfold getQUIC at h
  cases hsp : sendQUIC d with
  | error e =>
    simp only [hsp] at h
    exact Except.noConfusion h
  | ok p =>
    obtain ⟨hd, _⟩ := sendQUIC_ok d p hsp
    simp only [hsp] at h
    cases hdn : decodeNat p.payload with
    | none =>
      simp only [hdn] at h
      exact Except.noConfusion h
    | some pr =>
      obtain ⟨inTyp, rest⟩ := pr
      simp only [hdn] at h
      by_cases hne : typ ≠ inTyp
      · simp only [if_pos hne] at h
        exact Except.noConfusion h
      · push_neg at hne
        subst hne
        exact ⟨p, rest, hd, (decodeNat_eq_some p.payload typ rest).mp hdn⟩

/-! ## Claim theorems -/

/-- C3 counterexample: a single non-magic byte (here `0x00`) in front of a
perfectly well-formed frame `[#, cmd=Get, len=0]` is NOT skipped: `readHeader`
aborts with `ErrInvalidMagic`, while the same frame without the leading byte
decodes fine.  This falsifies "every byte preceding the magic byte is
skipped one at a time ... the header reader returns that frame's header". -/
theorem c3_counterexample :
    readHeader (0 :: magicByte :: 1 :: 0 :: 0 :: []) = .error .invalidMagic ∧
    readHeader (magicByte :: 1 :: 0 :: 0 :: []) =
      .ok ({ cmd := 1, flag := 0, len := 0 }, []) := by
  constructor
  · rfl
  · rfl

/-- C3 (amended): `readHeader` does not skip leading noise.  The first byte
read decides everything: a non-magic byte is rejected with
`ErrInvalidMagic`; the magic byte followed by three header bytes yields the
decoded header; an exhausted transport surfaces the read error.  Only a
stream that begins directly with the magic byte (k = 0 leading non-magic
bytes) yields the frame's header. -/
theorem c3_no_resync (b : Byte) (rest : List Byte) (hb : b ≠ magicByte) :
    readHeader (b :: rest) = .error .invalidMagic ∧
    (∀ b0 b1 b2 tail, readHeader (magicByte :: b0 :: b1 :: b2 :: tail) =
      .ok ({ cmd := b0 &&& 31, flag := b0 >>> 5, len := b1 * 256 + b2 }, tail)) ∧
    readHeader ([] : List Byte) = .error .eof := by
  refine ⟨?_, ?_, rfl⟩
  · simp [readHeader, hb]
  · intro b0 b1 b2 tail
    exact readHeader_magic b0 b1 b2 tail

theorem c3_no_resync_witness :
    readHeader (0 :: (magicByte :: 1 :: 0 :: 0 :: [])) = .error .invalidMagic ∧
    (∀ b0 b1 b2 tail, readHeader (magicByte :: b0 :: b1 :: b2 :: tail) =
      .ok ({ cmd := b0 &&& 31, flag := b0 >>> 5, len := b1 * 256 + b2 }, tail)) ∧
    readHeader ([] : List Byte) = .error .eof :=
  c3_no_resync 0 (magicByte :: 1 :: 0 :: 0 :: []) (by decide)

/-- C5: the code is wrong, the claim describes the intent.  The dead
`ErrShortRead` branch (reachable only with `n == 0` and a nil error, which
`io.CopyN` never produces for a positive request) shows the intended
end-of-stream handling, but the `continue`-on-EOF branch makes the loop spin
forever once the transport is exhausted: for a packet announcing 1 payload
byte over an empty transport, no amount of iterations produces a result —
in particular `ErrShortRead` is never returned. -/
theorem c5_eof_loops_forever :
    ∀ fuel : Nat, readPayloadLoop fuel [] [] 1 = none := by
  intro fuel
  exact readPayloadLoop_exhausted fuel [] 1 (by decide)

/-- C8 counterexample: `Send` with a 65536-byte payload does not fail — it
produces (and writes) a frame whose 16-bit length field is `0`, which any
conforming reader decodes as a zero-length payload.  The claim "encoding/
sending the frame fails with an error rather than producing a header" and
"a frame with a wrong (truncated) length field is never written" are both
false on the code. -/
theorem c8_counterexample :
    sendFrame QuicCmdGet (List.replicate 65536 0) =
      magicByte :: 1 :: 0 :: 0 :: List.replicate 65536 0 ∧
    readHeader (sendFrame QuicCmdGet (List.replicate 65536 0)) =
      .ok ({ cmd := 1, flag := 0, len := 0 }, List.replicate 65536 0) ∧
    (List.replicate 65536 (0 : Byte)).length = 65536 := by
  have e1 : (1 : Nat) % 256 = 1 := by norm_num
  have e2 : ((65536 : Nat) >>> 8) % 256 = 0 := by decide
  have e3 : (65536 : Nat) % 256 = 0 := by norm_num
  have h : sendFrame QuicCmdGet (List.replicate 65536 0) =
      magicByte :: 1 :: 0 :: 0 :: List.replicate 65536 0 := by
    simp only [sendFrame, QuicCmdGet, List.length_replicate, List.cons_append,
      List.nil_append, e1, e2, e3]
  refine ⟨h, ?_, List.length_replicate 65536 0⟩
  rw [h]
  have hh := readHeader_magic 1 0 0 (List.replicate 65536 (0 : Byte))
  have a1 : (1 : Nat) &&& 31 = 1 := by decide
  have a2 : (1 : Nat) >>> 5 = 0 := by decide
  have a3 : (0 : Nat) * 256 + 0 = 0 := by norm_num
  rw [a1, a2, a3] at hh
  exact hh

/-- C8 (amended): sending never fails on account of the payload size.  For
every command and payload, `Send` writes the frame
`# cmd hi lo data`, and the 16-bit length field it carries decodes to
`len(data) % 2^16` — silently truncated, not rejected. -/
theorem c8_length_truncated (cmd : Nat) (data : List Byte) :
    sendFrame cmd data =
      magicByte :: cmd % 256 :: (data.length >>> 8) % 256 :: data.length % 256 :: data ∧
    readHeader (sendFrame cmd data) =
      .ok ({ cmd := (cmd % 256) &&& 31, flag := (cmd % 256) >>> 5,
             len := data.length % 65536 }, data) := by
  constructor
  · simp [sendFrame]
  · have h := readHeader_magic (cmd % 256) ((data.length >>> 8) % 256)
      (data.length % 256) data
    have harith : ((data.length >>> 8) % 256) * 256 + data.length % 256 =
        data.length % 65536 := by
      rw [Nat.shiftRight_eq_div_pow]
      have h256 : (2 : Nat) ^ 8 = 256 := by norm_num
      rw [h256]
      omega
    simp only [sendFrame, List.cons_append, List.nil_append]
    rw [h, harith]

/-- C6: streaming reassembly is the in-order concatenation of the initial
frame's payload with each non-zero sub-frame's payload, stopping exactly at
the first zero-length sub-frame; the result is byte-identical to what the
non-streaming payload reader produces for the same logical payload. -/
theorem c6_streaming_reassembly (start : List Byte) (chunks : List (List Byte))
    (rest tail : List Byte)
    (h : ∀ c ∈ chunks, c ≠ [] ∧ c.length < 65536) :
    readStreaming (chunks.length + 1) start.length
        (start ++ (encodeSubframes chunks ++ rest)) =
      some (.ok (start ++ chunks.flatten, rest)) ∧
    readPayloadLoop 2 [] ((start ++ chunks.flatten) ++ tail)
        (start ++ chunks.flatten).length =
      some (.ok (start ++ chunks.flatten, tail)) := by
  constructor
  · unfold readStreaming
    rw [copyN_append start (encodeSubframes chunks ++ rest)]
    exact readSubframes_encode chunks start rest h
  · exact readPayloadLoop_complete (start ++ chunks.flatten) tail

theorem c6_streaming_reassembly_witness :
    readStreaming (List.length [[1], [2, 3]] + 1) (List.length [9])
        ([9] ++ (encodeSubframes [[1], [2, 3]] ++ [7])) =
      some (.ok ([9] ++ List.flatten [[1], [2, 3]], [7])) ∧
    readPayloadLoop 2 [] (([9] ++ List.flatten [[1], [2, 3]]) ++ [8])
        (List.length ([9] ++ List.flatten [[1], [2, 3]])) =
      some (.ok ([9] ++ List.flatten [[1], [2, 3]], [8])) :=
  c6_streaming_reassembly [9] [[1], [2, 3]] [7] [8] (by decide)

/-- C1: in all four typed operations (`Get`/`Set` of protocol.go,
`GetQUIC`/`SetQUIC` of quic.go) an echoed tag differing from the requested
tag yields the tag-mismatch error, and an operation only succeeds — only
decodes a value into the caller's target — when the first decoded payload
element is exactly the requested tag. -/
theorem c1_tag_validation (typ inTyp cmd flag : Nat) (rest : List CborItem)
    (hflag : flag ≠ QuicFlagError) (hne : typ ≠ inTyp) :
    GetReply typ { cmd := cmd, flag := flag, payload := .num inTyp :: rest } =
      .error (.tagMismatch typ inTyp) ∧
    SetReply typ { cmd := cmd, flag := flag, payload := .num inTyp :: rest } =
      .error (.tagMismatch typ inTyp) ∧
    GetValueReply typ { cmd := cmd, flag := flag, payload := .num inTyp :: rest } =
      .error (.tagMismatch typ inTyp) ∧
    getQUIC typ (some { cmd := cmd, flag := flag, payload := .num inTyp :: rest }) =
      .error (.tagMismatch typ inTyp) ∧
    setQUIC typ (some { cmd := cmd, flag := flag, payload := .num inTyp :: rest }) =
      .error (.tagMismatch typ inTyp) ∧
    (∀ (r : QPacket) (v : CborItem), GetValueReply typ r = .ok v →
      ∃ tl, r.payload = .num typ :: tl) ∧
    (∀ (d : Option QPacket) (v : CborItem), getQUIC typ d = .ok v →
      ∃ p tl, d = some p ∧ p.payload = .num typ :: tl) := by
  refine ⟨?_, ?_, ?_, ?_, ?_, ?_, ?_⟩
  · simp [GetReply, sendReply, decodeNat, hflag, hne]
  · simp [SetReply, sendReply, decodeNat, hflag, hne]
  · simp [GetValueReply, GetReply, sendReply, decodeNat, hflag, hne]
  · simp [getQUIC, sendQUIC, decodeNat, hflag, hne]
  · simp [setQUIC, sendQUIC, decodeNat, hflag, hne]
  · intro r v h
    cases hg : GetReply typ r with
    | error e =>
      unfold GetValueReply at h
      simp only [hg] at h
      exact Except.noConfusion h
    | ok tl2 => exact ⟨tl2, (GetReply_ok typ r tl2 hg).2⟩
  · intro d v h
    exact getQUIC_ok typ d v h

theorem c1_tag_validation_witness :
    GetReply 1 { cmd := 1, flag := 0, payload := [.num 2] } =
      .error (.tagMismatch 1 2) ∧
    SetReply 1 { cmd := 1, flag := 0, payload := [.num 2] } =
      .error (.tagMismatch 1 2) ∧
    GetValueReply 1 { cmd := 1, flag := 0, payload := [.num 2] } =
      .error (.tagMismatch 1 2) ∧
    getQUIC 1 (some { cmd := 1, flag := 0, payload := [.num 2] }) =
      .error (.tagMismatch 1 2) ∧
    setQUIC 1 (some { cmd := 1, flag := 0, payload := [.num 2] }) =
      .error (.tagMismatch 1 2) ∧
    (∀ (r : QPacket) (v : CborItem), GetValueReply 1 r = .ok v →
      ∃ tl, r.payload = .num 1 :: tl) ∧
    (∀ (d : Option QPacket) (v : CborItem), getQUIC 1 d = .ok v →
      ∃ p tl, d = some p ∧ p.payload = .num 1 :: tl) :=
  c1_tag_validation 1 2 1 0 [] (by decide) (by decide)

/-- C2: a reply carrying the Error flag never produces a value packet from
`Send` or `SendQUIC`; its payload is decoded as a single string and the
operation returns an error carrying exactly that string. -/
theorem c2_error_flag_short_circuits (p : QPacket) (hf : p.flag = QuicFlagError) :
    (∀ q, sendReply p ≠ .ok q) ∧
    (∀ q, sendQUIC (some p) ≠ .ok q) ∧
    (∀ msg tl, p.payload = .str msg :: tl →
      sendReply p = .error (.protocolError msg) ∧
      sendQUIC (some p) = .error (.protocolError msg)) := by
  refine ⟨?_, ?_, ?_⟩
  · intro q hq
    obtain ⟨hne, _⟩ := (sendReply_ok_iff p q).mp hq
    exact hne hf
  · intro q hq
    obtain ⟨hd, hne⟩ := sendQUIC_ok (some p) q hq
    injection hd with hpq
    exact hne (hpq ▸ hf)
  · intro msg tl hp
    constructor
    · simp [sendReply, hf, hp, decodeStr]
    · simp [sendQUIC, hf, hp, decodeStr]

theorem c2_error_flag_short_circuits_witness :
    (∀ q, sendReply { cmd := 1, flag := QuicFlagError, payload := [.str "boom"] } ≠ .ok q) ∧
    (∀ q, sendQUIC (some { cmd := 1, flag := QuicFlagError, payload := [.str "boom"] }) ≠ .ok q) ∧
    (∀ msg tl,
      ({ cmd := 1, flag := QuicFlagError, payload := [.str "boom"] } : QPacket).payload =
        .str msg :: tl →
      sendReply { cmd := 1, flag := QuicFlagError, payload := [.str "boom"] } =
        .error (.protocolError msg) ∧
      sendQUIC (some { cmd := 1, flag := QuicFlagError, payload := [.str "boom"] }) =
        .error (.protocolError msg)) :=
  c2_error_flag_short_circuits { cmd := 1, flag := QuicFlagError, payload := [.str "boom"] } rfl

/-- C4 counterexample: the controller's `ReadQUIC` performs no command
validation at all.  A packet whose command is `Invalid` (0) is not rejected
with `ErrInvalidCommand`; with a waiter registered and receiving on
`quicChannel[0]` (possible after `SendQUIC(QuicCmdInvalid, ...)`), the
packet is delivered to that waiter.  This falsifies "the packet reader
rejects the packet with ErrInvalidCommand, and such a packet is never
dispatched to a waiter" for the quic.go implementation. -/
theorem c4_counterexample :
    readQUICDispatch { cmd := QuicCmdInvalid, flag := QuicFlagNone, payload := [] } true =
      .dispatched { cmd := QuicCmdInvalid, flag := QuicFlagNone, payload := [] } := by
  rfl

/-- C4 (amended): the quic package's `readPacket` rejects a command that is
`Invalid` or `≥ Max` with `ErrInvalidCommand` before any dispatch, and a
header it accepts always carries an in-range command; the controller's
`ReadQUIC`, however, performs no command validation — an Invalid-command
packet flows to the per-command correlation channel, delivered when a
waiter is ready and silently dropped otherwise. -/
theorem c4_cmd_validation :
    (∀ (src : List Byte) (h : QuicHeader) (rest : List Byte),
      readHeader src = .ok (h, rest) →
      QuicCmdMax ≤ h.cmd ∨ h.cmd = QuicCmdInvalid →
      readPacketHdr src = .error .invalidCommand) ∧
    (∀ (src : List Byte) (h : QuicHeader) (rest : List Byte),
      readPacketHdr src = .ok (h, rest) →
      h.cmd ≠ QuicCmdInvalid ∧ h.cmd < QuicCmdMax) ∧
    (∀ (flag : Nat) (payload : List CborItem) (w : Bool),
      readQUICDispatch { cmd := QuicCmdInvalid, flag := flag, payload := payload } w =
        if w then .dispatched { cmd := QuicCmdInvalid, flag := flag, payload := payload }
        else .dropped { cmd := QuicCmdInvalid, flag := flag, payload := payload }) := by
  refine ⟨?_, ?_, ?_⟩
  · intro src h rest hh hbad
    unfold readPacketHdr
    simp only [hh]
    rw [if_pos hbad]
  · intro src h rest hok
    unfold readPacketHdr at hok
    cases hh : readHeader src with
    | error e =>
      simp only [hh] at hok
      exact Except.noConfusion hok
    | ok pr =>
      obtain ⟨h2, rest2⟩ := pr
      simp only [hh] at hok
      by_cases hbad : QuicCmdMax ≤ h2.cmd ∨ h2.cmd = QuicCmdInvalid
      · rw [if_pos hbad] at hok
        exact Except.noConfusion hok
      · rw [if_neg hbad] at hok
        push_neg at hbad
        obtain ⟨hb1, hb2⟩ := hbad
        injection hok with h3
        cases h3
        exact ⟨hb2, by omega⟩
  · intro flag payload w
    cases w <;> rfl

theorem c4_cmd_validation_witness :
    readPacketHdr (magicByte :: 0 :: 0 :: 0 :: []) = .error .invalidCommand ∧
    ((1 : Nat) ≠ QuicCmdInvalid ∧ (1 : Nat) < QuicCmdMax) ∧
    readQUICDispatch { cmd := QuicCmdInvalid, flag := 0, payload := [] } true =
      .dispatched { cmd := QuicCmdInvalid, flag := 0, payload := [] } := by
  refine ⟨?_, ?_, ?_⟩
  · exact c4_cmd_validation.1 (magicByte :: 0 :: 0 :: 0 :: [])
      { cmd := 0, flag := 0, len := 0 } [] (by rfl) (Or.inr rfl)
  · exact c4_cmd_validation.2.1 (magicByte :: 1 :: 0 :: 0 :: [])
      { cmd := 1, flag := 0, len := 0 } [] (by rfl)
  · exact c4_cmd_validation.2.2 0 [] true

/-- C7: when no packet for the request's command arrives on its correlation
channel within the timeout window, `SendQUIC` returns the timeout error
("quic recive timeout"); and a reply arriving once the caller is no longer
receiving (it has timed out and abandoned the request) is dropped by
`ReadQUIC`'s non-blocking dispatch rather than delivered. -/
theorem c7_timeout (p : QPacket) (hlog : p.cmd ≠ QuicCmdLog)
    (hbb : p.cmd ≠ QuicCmdBlackbox) :
    sendQUIC none = .error (.timeout "quic recive timeout") ∧
    readQUICDispatch p false = .dropped p := by
  refine ⟨rfl, ?_⟩
  simp [readQUICDispatch, hlog, hbb]

theorem c7_timeout_witness :
    sendQUIC none = .error (.timeout "quic recive timeout") ∧
    readQUICDispatch { cmd := QuicCmdGet, flag := 0, payload := [] } false =
      .dropped { cmd := QuicCmdGet, flag := 0, payload := [] } :=
  c7_timeout { cmd := QuicCmdGet, flag := 0, payload := [] } (by decide) (by decide)

/-- C9 counterexample: a `Log` packet whose payload fails to decode is NOT
"logged and dropped".  In protocol.go the decode error is returned from
`readPacket` — surfaced as an error of the read path — and in quic.go's
`ReadQUIC` the decode failure is `log.Fatal`, which terminates the whole
process.  This falsifies "for every unsolicited packet (Log or telemetry)
whose payload fails to decode, the reader logs the failure and drops the
packet, then continues reading". -/
theorem c9_counterexample :
    classifyPacket none { cmd := QuicCmdLog, flag := QuicFlagNone, payload := [.bad] } =
      .errResult .decodeFailure ∧
    readQUICDispatch { cmd := QuicCmdLog, flag := QuicFlagNone, payload := [.bad] } true =
      .fatal := by
  constructor
  · rfl
  · rfl

/-- C9 (amended): only telemetry/Blackbox decode failures are dropped with
the reader continuing (protocol.go logs and consumes them as
`errUpdatePacket`).  A `Log` packet whose payload fails to decode is
surfaced as an error of the read path by protocol.go, and both `Log` and
`Blackbox` decode failures terminate the process (`log.Fatal`) in
quic.go's `ReadQUIC`. -/
theorem c9_decode_failure_handling (v : Option Nat) (pL pB : QPacket)
    (others : List QPacket) (w : Bool)
    (hver : v = none ∨ v = some 1)
    (hcl : pL.cmd = QuicCmdLog) (hdl : decodeStr pL.payload = none)
    (hcb : pB.cmd = QuicCmdBlackbox) (hdb : decodeAny pB.payload = none)
    (hdbb : decodeBlackbox pB.payload = none) :
    classifyPacket v pB = .update ∧
    readLoop v (pB :: others) = readLoop v others ∧
    classifyPacket v pL = .errResult .decodeFailure ∧
    readLoop v (pL :: others) = .error .decodeFailure ∧
    readQUICDispatch pL w = .fatal ∧
    readQUICDispatch pB w = .fatal := by
  have hneB : pB.cmd ≠ QuicCmdLog := by
    rw [hcb]; decide
  have hclB : classifyPacket v pB = .update := by
    unfold classifyPacket
    rw [if_neg hneB, if_pos ⟨hver, hcb⟩]
    simp only [hdb]
  have hclL : classifyPacket v pL = .errResult .decodeFailure := by
    unfold classifyPacket
    rw [if_pos hcl]
    simp only [hdl]
  refine ⟨hclB, ?_, hclL, ?_, ?_, ?_⟩
  · simp only [readLoop, hclB]
  · simp only [readLoop, hclL]
  · unfold readQUICDispatch
    rw [if_pos hcl]
    simp only [hdl]
  · unfold readQUICDispatch
    rw [if_neg hneB, if_pos hcb]
    simp only [hdbb]

theorem c9_decode_failure_handling_witness :
    classifyPacket none { cmd := QuicCmdBlackbox, flag := 0, payload := [.bad] } = .update ∧
    readLoop none ({ cmd := QuicCmdBlackbox, flag := 0, payload := [.bad] } :: []) =
      readLoop none [] ∧
    classifyPacket none { cmd := QuicCmdLog, flag := 0, payload := [.bad] } =
      .errResult .decodeFailure ∧
    readLoop none ({ cmd := QuicCmdLog, flag := 0, payload := [.bad] } :: []) =
      .error .decodeFailure ∧
    readQUICDispatch { cmd := QuicCmdLog, flag := 0, payload := [.bad] } true = .fatal ∧
    readQUICDispatch { cmd := QuicCmdBlackbox, flag := 0, payload := [.bad] } true = .fatal :=
  c9_decode_failure_handling none
    { cmd := QuicCmdLog, flag := 0, payload := [.bad] }
    { cmd := QuicCmdBlackbox, flag := 0, payload := [.bad] }
    [] true (Or.inl rfl) rfl rfl rfl rfl rfl

/-- C10: `Close` is not idempotent.  It unconditionally runs
`close(proto.Log)`; the first `Close` on an open session succeeds and
leaves the channel closed, and the second — including the automatic
`Close` that `readPacket` performs on receipt of an Exit-flagged packet
after the caller has already closed the session — closes an already-closed
channel, which panics under Go semantics. -/
theorem c10_close_not_idempotent :
    closeSession { logChan := .opened } = .ok { logChan := .closed } ∧
    closeSession { logChan := .closed } = .panicked ∧
    (∀ s s2 : Session, closeSession s = .ok s2 → closeSession s2 = .panicked) ∧
    handleExitFlag QuicFlagExit { logChan := .closed } = .panicked := by
  refine ⟨rfl, rfl, ?_, rfl⟩
  intro s s2 h
  cases hs : s.logChan with
  | opened =>
    unfold closeSession at h
    simp only [hs] at h
    injection h with h2
    rw [← h2]
    rfl
  | closed =>
    unfold closeSession at h
    simp only [hs] at h
    exact CloseResult.noConfusion h

theorem c10_close_not_idempotent_witness :
    closeSession { logChan := ChanState.closed } = .panicked :=
  c10_close_not_idempotent.2.2.1 { logChan := .opened } { logChan := .closed } rfl

end Configurator
